import Mathlib

/-!
Shallow embedding of the libsolace commandline parser
(src/framework/commandlineParser.cpp).

Strings (the library's StringView) are modelled as lists of characters.
C strings handed over through argv may be null, so an argv cell is an
`Option Str`.  Errors are messages; an unchecked read through a null
pointer (undefined behaviour in the C++) is modelled by the distinguished
outcome `PError.nullDeref`.  Destination variables written by option and
argument callbacks are modelled by an explicit state `σ` threaded through
the parse; a command's terminal callback is identified by a number.
-/

deriving instance DecidableEq for Except

namespace Solace

abbrev Str := List Char

/-- A character view of a string literal. -/
def lit (s : String) : Str := s.data

/-- Outcome of a failing parse: either an `Error` carrying a formatted
message, or an unchecked read through a null `char*` (undefined behaviour
in the C++ source, kept as a distinguished outcome here). -/
inductive PError where
  | msg : Str → PError
  | nullDeref : PError
deriving DecidableEq

/-- `StringView::startsWith(char)` — true when the view is non-empty and its
first character is the given one. -/
def strStartsWith (s : Str) (c : Char) : Bool :=
  match s with
  | [] => false
  | x :: _ => x == c

/-- The argument expectation of an option, from the header's
`OptionArgument` enumeration. -/
inductive OptionArgument where
  | Required
  | Optional
  | NotRequired
deriving DecidableEq

/-- `CommandlineParser::Option`: a set of name aliases, an argument
expectation and a type-erased callback.  The callback receives the resolved
value, the context name (the resolved option name) and the current state of
the caller-owned destinations, and returns the new state together with an
optional error. -/
structure Opt (σ : Type) where
  names : List Str
  expect : OptionArgument
  callback : Option Str → Str → σ → σ × Option PError

/-- `Option::isMatch`: linear scan of the alias list for an exact match. -/
def Opt.isMatch {σ : Type} (o : Opt σ) (name : Str) : Bool :=
  o.names.any (fun n => n == name)

/-- `CommandlineParser::Argument`: a positional slot with a name and a
callback taking the value, the context name and the state. -/
structure Arg (σ : Type) where
  name : Str
  callback : Str → Str → σ → σ × Option PError

mutual
/-- `CommandlineParser::Command`: options, positional arguments, a mapping
from subcommand name to child command, and the terminal callback (identified
by a number; the parser returns it without invoking it).  The subcommand
mapping is its own inductive so the tree walk recurses structurally. -/
inductive Command (σ : Type) : Type where
  | mk : List (Opt σ) → List (Arg σ) → CommandMap σ → Nat → Command σ

/-- The subcommand mapping: an association list with exact-match lookup. -/
inductive CommandMap (σ : Type) : Type where
  | nil : CommandMap σ
  | cons : Str → Command σ → CommandMap σ → CommandMap σ
end

def Command.options {σ : Type} : Command σ → List (Opt σ)
  | .mk o _ _ _ => o

def Command.arguments {σ : Type} : Command σ → List (Arg σ)
  | .mk _ a _ _ => a

def Command.commands {σ : Type} : Command σ → CommandMap σ
  | .mk _ _ c _ => c

def Command.cb {σ : Type} : Command σ → Nat
  | .mk _ _ _ n => n

/-- `empty()` on the subcommand mapping. -/
def CommandMap.isEmpty {σ : Type} : CommandMap σ → Bool
  | .nil => true
  | .cons _ _ _ => false

/-- `find` on the subcommand mapping: exact string match on the key. -/
def CommandMap.find? {σ : Type} : CommandMap σ → Str → Option (Command σ)
  | .nil, _ => none
  | .cons k c rest, tok => if k == tok then some c else rest.find? tok

/-- Error message of `parseOptions` when an inspected argv cell is null. -/
def invalidArgsErr : PError := .msg (lit "Invalid number of arguments!")

/-- Error when a matched option requires a value and none was resolved. -/
def requiredValueErr (name : Str) : PError :=
  .msg (lit "Option '" ++ name ++ lit "' expects a value, none were given")

/-- Error when no registered option matches the resolved name. -/
def unexpectedOptionErr (name : Str) : PError :=
  .msg (lit "Unexpected option '" ++ name ++ lit "'")

/-- Error when a positional token names no registered subcommand. -/
def commandNotSupportedErr (tok : Str) : PError :=
  .msg (lit "Command '" ++ tok ++ lit "' not supported")

/-- Error of the leaf branch reached with tokens left but neither
subcommands nor arguments declared. -/
def unexpectedArgumentsErr : PError := .msg (lit "Unexpected arguments given")

/-- Error when tokens ran out but subcommands or arguments were declared. -/
def notEnoughArgumentsErr : PError := .msg (lit "Not enough arguments")

/-- Error of `parse` on a negative argument count. -/
def negativeArgcErr : PError :=
  .msg (lit "Number of arguments can not be negative")

/-- `parseOption` (the token splitter, commandlineParser.cpp:370): strip one
prefix character, or two when the second character is again the prefix; when
nothing follows the prefixes the result is the empty name with no value;
otherwise scan for the separator — the name stops at it and the value is the
remainder behind it, or the whole tail is the name when no separator occurs. -/
def parseOption (arg : Str) (pfx sep : Char) : Str × Option Str :=
  let startIndex : Nat := if strStartsWith (arg.drop 1) pfx then 2 else 1
  if arg.length ≤ startIndex then
    ([], none)
  else
    let tail := arg.drop startIndex
    match tail.dropWhile (fun c => c != sep) with
    | [] => (tail, none)
    | _ :: rest => (tail.takeWhile (fun c => c != sep), some rest)

/-- The inner loop of `parseOptions` over the registered options for one
token: each option whose aliases contain the resolved name is checked for a
required-but-missing value and then has its callback invoked; the first
error aborts; the count of matched options is returned with the state. -/
def matchOptions {σ : Type} :
    List (Opt σ) → Str → Option Str → σ → Except PError (Nat × σ)
  | [], _, _, s => .ok (0, s)
  | o :: rest, name, value, s =>
    if o.isMatch name then
      if value.isNone ∧ o.expect = OptionArgument.Required then
        .error (requiredValueErr name)
      else
        match o.callback value name s with
        | (_, some e) => .error e
        | (s', none) =>
          match matchOptions rest name value s' with
          | .error e => .error e
          | .ok (n, s'') => .ok (n + 1, s'')
    else
      matchOptions rest name value s

/-- Dispatch of one resolved option token: run the match loop and fail with
the unexpected-option error when fewer than one option matched. -/
def dispatchToken {σ : Type} (opts : List (Opt σ)) (name : Str)
    (value : Option Str) (s : σ) : Except PError σ :=
  match matchOptions opts name value s with
  | .error e => .error e
  | .ok (n, s') => if n < 1 then .error (unexpectedOptionErr name) else .ok s'

/-- The loop of `parseOptions` (commandlineParser.cpp:392), structurally
recursive on `remaining`, the number of loop iterations left before `argc`
(`remaining = argc - i`; the wrapper establishes it and every recursive call
maintains it).  Each head cell is null-checked, then split; when the split
yields no inline value and the next cell exists (`remaining` above zero) and
does not start with the prefix, that next cell is consumed as the value —
the next cell is read with no null check, so a null there is dereferenced.
On a token that does not start with the prefix the loop stops, returning the
index of the first positional token. -/
def parseOptionsAux {σ : Type} (pfx sep : Char) (opts : List (Opt σ))
    (argv : List (Option Str)) :
    Nat → Nat → σ → Except PError (Nat × σ)
  | 0, i, s => .ok (i, s)
  | remaining + 1, i, s =>
    match argv.getD i none with
    | none => .error invalidArgsErr
    | some arg =>
      if strStartsWith arg pfx then
        let pr := parseOption arg pfx sep
        match pr.2 with
        | some v =>
          match dispatchToken opts pr.1 (some v) s with
          | .error e => .error e
          | .ok s' => parseOptionsAux pfx sep opts argv remaining (i + 1) s'
        | none =>
          match remaining with
          | 0 =>
            match dispatchToken opts pr.1 none s with
            | .error e => .error e
            | .ok s' => parseOptionsAux pfx sep opts argv 0 (i + 1) s'
          | remaining' + 1 =>
            match argv.getD (i + 1) none with
            | none => .error .nullDeref
            | some nxt =>
              if strStartsWith nxt pfx then
                match dispatchToken opts pr.1 none s with
                | .error e => .error e
                | .ok s' => parseOptionsAux pfx sep opts argv (remaining' + 1) (i + 1) s'
              else
                match dispatchToken opts pr.1 (some nxt) s with
                | .error e => .error e
                | .ok s' => parseOptionsAux pfx sep opts argv remaining' (i + 2) s'
      else
        .ok (i, s)

/-- `parseOptions` (commandlineParser.cpp:392): run the flag loop from the
current index, bounded by the argument count. -/
def parseOptions {σ : Type} (pfx sep : Char) (opts : List (Opt σ))
    (argc : Nat) (argv : List (Option Str)) (i : Nat) (s : σ) :
    Except PError (Nat × σ) :=
  parseOptionsAux pfx sep opts argv (argc - i) i s

mutual

/-- `parseCommand` (commandlineParser.cpp:459): run the option phase; with a
positional token left, a command owning subcommands looks the token up by
exact name (miss: command-not-supported; hit: recurse past the token), a
command owning only arguments returns its callback (argument binding is left
unfinished in the source), and a bare command fails; with no token left the
callback is returned exactly when neither arguments nor subcommands were
declared. -/
def parseCommand {σ : Type} (pfx sep : Char) (cmd : Command σ) (argc : Nat)
    (argv : List (Option Str)) (offset : Nat) (s : σ) :
    Except PError (Nat × σ) :=
  match cmd with
  | .mk opts args cmds cb =>
    match parseOptions pfx sep opts argc argv offset s with
    | .error e => .error e
    | .ok (pos, s') =>
      if pos < argc then
        if cmds.isEmpty then
          if args.isEmpty then
            .error unexpectedArgumentsErr
          else
            .ok (cb, s')
        else
          match argv.getD pos none with
          | none => .error .nullDeref
          | some tok => findAndRecurse pfx sep cmds tok argc argv pos s'
      else
        if args.isEmpty && cmds.isEmpty then
          .ok (cb, s')
        else
          .error notEnoughArgumentsErr

/-- The subcommand lookup of `parseCommand` fused with its recursive call:
walk the mapping for an exact key match; a miss over the whole mapping is
the command-not-supported error, a hit recurses into the child with the
offset advanced past the subcommand name. -/
def findAndRecurse {σ : Type} (pfx sep : Char) (cmds : CommandMap σ)
    (tok : Str) (argc : Nat) (argv : List (Option Str)) (pos : Nat) (s : σ) :
    Except PError (Nat × σ) :=
  match cmds with
  | .nil => .error (commandNotSupportedErr tok)
  | .cons k c rest =>
    if k == tok then parseCommand pfx sep c argc argv (pos + 1) s
    else findAndRecurse pfx sep rest tok argc argv pos s

end

/-- `CommandlineParser`: the option prefix character (`_prefix` in the
source, default `-`), the key/value separator (default `=`) and the root
command (`_defaultAction`). -/
structure CommandlineParser (σ : Type) where
  pfx : Char
  valueSeparator : Char
  defaultAction : Command σ

/-- `CommandlineParser::parse` (commandlineParser.cpp:512): a negative
count is a hard error; a zero count resolves the root command like a leaf
with no tokens; otherwise the context starts at offset 1 (argv[0] is read
into the context name with no null check) and the tree walk begins at the
root. -/
def CommandlineParser.parse {σ : Type} (p : CommandlineParser σ) (argc : Int)
    (argv : List (Option Str)) (s : σ) : Except PError (Nat × σ) :=
  if argc < 0 then
    .error negativeArgcErr
  else if argc < 1 then
    if p.defaultAction.arguments.isEmpty && p.defaultAction.commands.isEmpty then
      .ok (p.defaultAction.cb, s)
    else
      .error notEnoughArgumentsErr
  else
    match argv.getD 0 none with
    | none => .error .nullDeref
    | some _ => parseCommand p.pfx p.valueSeparator p.defaultAction
        argc.toNat argv 1 s

/-- Digit run to a number, most significant first. -/
def digitsToNat (ds : List Char) : Nat :=
  ds.foldl (fun n c => n * 10 + (c.toNat - '0'.toNat)) 0

/-- Modelled from the spec: the generic string-to-integer conversion
`tryParse` is declared in parseUtils.hpp, which is not among the given
sources; per the spec it parses the token as a whole (an optional sign
followed by decimal digits) and on failure produces a parse error carrying
the offending text.  It receives only the token, so the error message is a
function of the token alone. -/
def intSplitSign (v : Str) : Int × Str :=
  match v with
  | '-' :: rest => (-1, rest)
  | '+' :: rest => (1, rest)
  | _ => (1, v)

def tryParseInt (v : Str) : Except Str Int :=
  let p := intSplitSign v
  if p.2 ≠ [] ∧ p.2.all (fun c => c.isDigit) then
    .ok (p.1 * (digitsToNat p.2 : Int))
  else
    .error (lit "Can not parse '" ++ v ++ lit "' as an integer")

/-- `parseIntArgument` (commandlineParser.cpp:56): on success the parsed
value is written to the destination; on failure the destination is left
unchanged and the conversion's own error is returned.  The context parameter
of the source function is unnamed and unused, so it does not appear here. -/
def parseIntArgument (dest : Int) (value : Str) : Int × Option PError :=
  match tryParseInt value with
  | .ok v => (v, none)
  | .error e => (dest, some (.msg e))

/-- The integer Option binder (commandlineParser.cpp:97-162): every integer
width delegates to `parseIntArgument` with the resolved value; the context
name plays no part. -/
def intOptionCallback (dest : Int) (value : Str) (_ctxName : Str) :
    Int × Option PError :=
  parseIntArgument dest value

/-- The integer positional Argument binder (commandlineParser.cpp:215-267):
the same delegation to `parseIntArgument`. -/
def intArgumentCallback (dest : Int) (value : Str) (_ctxName : Str) :
    Int × Option PError :=
  parseIntArgument dest value

/-- A decimal value as the modelled `strtod` produces it: a signed mantissa
together with the count of fraction digits; the value denoted is
`mantissa / 10 ^ fracDigits`.  The zero returned when no conversion happens
is `⟨0, 0⟩`. -/
structure DecFloat where
  mantissa : Int
  fracDigits : Nat
deriving DecidableEq

/-- Modelled from the spec: the C library `strtof`/`strtod`, the
locale-independent decimal parser the float binders call (external to the
repository).  It consumes the longest leading numeric run — an optional
sign, integer digits, an optional point with fraction digits — and returns
the parsed value together with the number of characters consumed; when no
digits occur the value is zero and nothing is consumed. -/
def strtodModel (v : Str) : DecFloat × Nat :=
  let signLen : Nat := match v with
    | '-' :: _ => 1
    | '+' :: _ => 1
    | _ => 0
  let sgn : Int := match v with
    | '-' :: _ => -1
    | _ => 1
  let body := v.drop signLen
  let ip := body.takeWhile (fun c => c.isDigit)
  let afterInt := body.dropWhile (fun c => c.isDigit)
  let fp : List Char := match afterInt with
    | '.' :: r => r.takeWhile (fun c => c.isDigit)
    | _ => []
  let fracLen : Nat := match afterInt with
    | '.' :: r => 1 + (r.takeWhile (fun c => c.isDigit)).length
    | _ => 0
  if ip.isEmpty && fp.isEmpty then
    (⟨0, 0⟩, 0)
  else
    (⟨sgn * ((digitsToNat ip * 10 ^ fp.length + digitsToNat fp : Nat) : Int),
      fp.length⟩,
     signLen + ip.length + fracLen)

def float32OptErrMsg (name v : Str) : Str :=
  lit "Option '" ++ name ++ lit "' is not float32 value: '" ++ v ++ lit "'"

def float64OptErrMsg (name v : Str) : Str :=
  lit "Option '" ++ name ++ lit "' is not float64 value: '" ++ v ++ lit "'"

def float32ArgErrMsg (name v : Str) : Str :=
  lit "Argument '" ++ name ++ lit "' is not float32 value: '" ++ v ++ lit "'"

def float64ArgErrMsg (name v : Str) : Str :=
  lit "Argument '" ++ name ++ lit "' is not float64 value: '" ++ v ++ lit "'"

/-- The float32 Option binder (commandlineParser.cpp:164): the
consumed-characters check happens first; only on success is the destination
assigned. -/
def float32OptionCallback (dest : DecFloat) (value : Str) (ctxName : Str) :
    DecFloat × Option PError :=
  let r := strtodModel value
  if r.2 = 0 then
    (dest, some (.msg (float32OptErrMsg ctxName value)))
  else
    (r.1, none)

/-- The float64 Option binder (commandlineParser.cpp:181), same shape. -/
def float64OptionCallback (dest : DecFloat) (value : Str) (ctxName : Str) :
    DecFloat × Option PError :=
  let r := strtodModel value
  if r.2 = 0 then
    (dest, some (.msg (float64OptErrMsg ctxName value)))
  else
    (r.1, none)

/-- The float32 positional Argument binder (commandlineParser.cpp:269): the
destination is assigned `strtof`'s result first and the consumed-characters
check happens only afterwards, so the write occurs on failure too. -/
def float32ArgumentCallback (_dest : DecFloat) (value : Str) (ctxName : Str) :
    DecFloat × Option PError :=
  let r := strtodModel value
  (r.1, if r.2 = 0 then some (.msg (float32ArgErrMsg ctxName value)) else none)

/-- The float64 positional Argument binder (commandlineParser.cpp:283),
same assign-then-check shape. -/
def float64ArgumentCallback (_dest : DecFloat) (value : Str) (ctxName : Str) :
    DecFloat × Option PError :=
  let r := strtodModel value
  (r.1, if r.2 = 0 then some (.msg (float64ArgErrMsg ctxName value)) else none)

/-- Modelled from the spec: `tryParse` at boolean type (parseUtils.hpp, not
among the given sources) — the value must be a boolean literal, else the
conversion fails with an error carrying the offending text. -/
def tryParseBool (v : Str) : Except Str Bool :=
  if v = lit "true" then .ok true
  else if v = lit "false" then .ok false
  else .error (lit "Can not parse '" ++ v ++ lit "' as a boolean")

/-- `parseBoolean` (commandlineParser.cpp:72): write the parsed literal on
success, keep the destination and return the conversion error otherwise. -/
def parseBoolean (dest : Bool) (value : Str) : Bool × Option PError :=
  match tryParseBool value with
  | .ok b => (b, none)
  | .error e => (dest, some (.msg e))

/-- The boolean Option binder (commandlineParser.cpp:199): with no resolved
value the destination is set to true; with a value the boolean literal
parser decides. -/
def boolOptionCallback (dest : Bool) (value : Option Str) (_ctxName : Str) :
    Bool × Option PError :=
  match value with
  | some v => parseBoolean dest v
  | none => (true, none)

/-- The boolean positional Argument binder (commandlineParser.cpp:297). -/
def boolArgumentCallback (dest : Bool) (value : Str) (_ctxName : Str) :
    Bool × Option PError :=
  parseBoolean dest value

/-- The string-view positional Argument binder (commandlineParser.cpp:303):
a plain assignment that never fails. -/
def stringArgumentCallback (_dest : Str) (value : Str) (_ctxName : Str) :
    Str × Option PError :=
  (value, none)

/-- The spec's wording of the option-token split: the name is the token with
one or two leading prefix characters stripped, running to the first
occurrence of the separator in the remainder; the inline value, when a
separator occurs there, is everything after that first occurrence. -/
def parseOptionSpec (arg : Str) (pfx sep : Char) : Str × Option Str :=
  let stripped := if strStartsWith (arg.drop 1) pfx then arg.drop 2 else arg.drop 1
  if sep ∈ stripped then
    (stripped.take (stripped.indexOf sep),
     some (stripped.drop (stripped.indexOf sep + 1)))
  else
    (stripped, none)

/-- The cumulative effect of one option token on the destinations: the
callbacks of the matching options, folded over the state in registration
order. -/
def applyMatched {σ : Type} (opts : List (Opt σ)) (name : Str)
    (value : Option Str) (s : σ) : σ :=
  (opts.filter (fun o => o.isMatch name)).foldl
    (fun st o => (o.callback value name st).fst) s

/-- Fixture: a leaf root command — no options, no arguments, no
subcommands — whose callback is 7. -/
def leafParser : CommandlineParser Nat := ⟨'-', '=', .mk [] [] .nil 7⟩

/-- Fixture: a root command declaring one positional argument. -/
def argParser : CommandlineParser Nat :=
  ⟨'-', '=', .mk [] [Arg.mk (lit "x") (fun _ _ s => (s, none))] .nil 7⟩

/-- Fixture: the `deploy` subcommand, a bare leaf with callback 9. -/
def deployCmd : Command Nat := .mk [] [] .nil 9

/-- Fixture: a root command owning the single subcommand `deploy`. -/
def treeParser : CommandlineParser Nat :=
  ⟨'-', '=', .mk [] [] (.cons (lit "deploy") deployCmd .nil) 7⟩

/-- Fixture: an option with alias `n` that records the value's length. -/
def optN : Opt Nat :=
  ⟨[lit "n"], .Required, fun v _ _ =>
    match v with
    | some t => (t.length, none)
    | none => (0, some (.msg (lit "no value")))⟩

/-- Fixture: an option with alias `q` and an optional argument, bumping the
state by one whenever it fires. -/
def optQ : Opt Nat :=
  ⟨[lit "q"], .Optional, fun _ _ s => (s + 1, none)⟩

/-- Fixture: a second option that also carries the alias `q`, bumping the
state by ten whenever it fires. -/
def optQ2 : Opt Nat :=
  ⟨[lit "q"], .NotRequired, fun _ _ s => (s + 10, none)⟩

/-- Fixture: an option with alias `r` whose argument is required. -/
def optR : Opt Nat :=
  ⟨[lit "r"], .Required, fun _ _ s => (s, none)⟩

/-- A token matching no registered option leaves the state untouched and
reports zero matches. -/
theorem matchOptions_no_match {σ : Type} (name : Str) (value : Option Str) :
    ∀ (opts : List (Opt σ)) (s : σ), (∀ o ∈ opts, o.isMatch name = false) →
      matchOptions opts name value s = .ok (0, s)
  | [], _, _ => rfl
  | o :: rest, s, h => by
    have ho : o.isMatch name = false := h o (List.mem_cons_self o rest)
    rw [matchOptions, if_neg (by simp [ho])]
    exact matchOptions_no_match name value rest s
      (fun o' ho' => h o' (List.mem_cons_of_mem _ ho'))

/-- A lookup miss over the whole subcommand mapping is the
command-not-supported error. -/
theorem findAndRecurse_miss {σ : Type} (pfx sep : Char) (tok : Str)
    (argc : Nat) (argv : List (Option Str)) (pos : Nat) (s : σ) :
    ∀ (cmds : CommandMap σ), cmds.find? tok = none →
      findAndRecurse pfx sep cmds tok argc argv pos s =
        .error (commandNotSupportedErr tok)
  | .nil, _ => rfl
  | .cons k c rest, h => by
    rw [CommandMap.find?] at h
    rw [findAndRecurse]
    by_cases hk : k == tok
    · rw [if_pos hk] at h
      exact absurd h (by simp)
    · rw [if_neg hk] at h
      rw [if_neg hk]
      exact findAndRecurse_miss pfx sep tok argc argv pos s rest h

/-- A lookup hit recurses into the found subcommand with the offset moved
past its name. -/
theorem findAndRecurse_hit {σ : Type} (pfx sep : Char) (tok : Str)
    (argc : Nat) (argv : List (Option Str)) (pos : Nat) (s : σ) :
    ∀ (cmds : CommandMap σ) (c : Command σ), cmds.find? tok = some c →
      findAndRecurse pfx sep cmds tok argc argv pos s =
        parseCommand pfx sep c argc argv (pos + 1) s
  | .nil, c, h => by rw [CommandMap.find?] at h; exact absurd h (by simp)
  | .cons k c' rest, c, h => by
    rw [CommandMap.find?] at h
    rw [findAndRecurse]
    by_cases hk : k == tok
    · rw [if_pos hk] at h
      rw [if_pos hk]
      rw [Option.some_inj] at h
      rw [h]
    · rw [if_neg hk] at h
      rw [if_neg hk]
      exact findAndRecurse_hit pfx sep tok argc argv pos s rest c h

/-- C7: `parse` rejects a negative argument count with the exact error
"Number of arguments can not be negative"; with a zero count it returns the
root command's callback when the root declares no arguments and no
subcommands, and fails with "Not enough arguments" when it declares
either. -/
theorem parse_argc_boundary :
    (∀ (σ : Type) (p : CommandlineParser σ) (argc : Int)
        (argv : List (Option Str)) (s : σ), argc < 0 →
        p.parse argc argv s = .error negativeArgcErr) ∧
    (∀ (σ : Type) (p : CommandlineParser σ) (argv : List (Option Str))
        (s : σ), p.defaultAction.arguments = [] →
        p.defaultAction.commands = .nil →
        p.parse 0 argv s = .ok (p.defaultAction.cb, s)) ∧
    (∀ (σ : Type) (p : CommandlineParser σ) (argv : List (Option Str))
        (s : σ), p.defaultAction.arguments ≠ [] ∨
          p.defaultAction.commands ≠ .nil →
        p.parse 0 argv s = .error notEnoughArgumentsErr) := by
  refine ⟨?_, ?_, ?_⟩
  · intro σ p argc argv s h
    rw [CommandlineParser.parse, if_pos h]
  · intro σ p argv s h1 h2
    rw [CommandlineParser.parse, if_neg (by omega), if_pos (by omega),
      if_pos (by rw [h1, h2]; rfl)]
  · intro σ p argv s h
    rw [CommandlineParser.parse, if_neg (by omega), if_pos (by omega),
      if_neg ?_]
    intro hc
    rw [Bool.and_eq_true] at hc
    rcases h with h | h
    · cases ha : p.defaultAction.arguments with
      | nil => exact h ha
      | cons x xs => rw [ha] at hc; simp [List.isEmpty] at hc
    · cases ha : p.defaultAction.commands with
      | nil => exact h ha
      | cons k c rest => rw [ha] at hc; simp [CommandMap.isEmpty] at hc

/-- C7 witness: the boundary behaviours at concrete inputs — a leaf root
with callback 7 and a root declaring one argument. -/
theorem parse_argc_boundary_witness :
    ((-1 : Int) < 0 ∧ leafParser.parse (-1) [] 0 = .error negativeArgcErr) ∧
    (leafParser.parse 0 [] 0 = .ok (7, 0)) ∧
    (argParser.parse 0 [] 0 = .error notEnoughArgumentsErr) :=
  ⟨⟨by decide, parse_argc_boundary.1 Nat leafParser (-1) [] 0 (by decide)⟩,
   parse_argc_boundary.2.1 Nat leafParser [] 0 rfl rfl,
   parse_argc_boundary.2.2 Nat argParser [] 0
     (Or.inl (by simp [argParser, Command.arguments]))⟩

/-- C1 counterexample: a root command with no subcommands and no declared
arguments, given a leftover positional token, does not return its callback —
it fails with "Unexpected arguments given". -/
theorem leaf_trailing_tokens_cex :
    leafParser.parse 2 [some (lit "app"), some (lit "extra")] 0
      = .error unexpectedArgumentsErr ∧
    leafParser.parse 2 [some (lit "app"), some (lit "extra")] 0
      ≠ .ok (7, 0) := by
  constructor
  · decide
  · decide

/-- C1 (amended): for a command with no subcommands and no declared
arguments, when the option phase completes successfully and positional
tokens remain, `parseCommand` fails with the error "Unexpected arguments
given" — the remaining tokens are not ignored. -/
theorem parseCommand_leaf_trailing_tokens {σ : Type} (pfx sep : Char)
    (cmd : Command σ) (argc : Nat) (argv : List (Option Str)) (offset : Nat)
    (s : σ) (pos : Nat) (s' : σ)
    (hcmds : cmd.commands = .nil) (hargs : cmd.arguments = [])
    (hopt : parseOptions pfx sep cmd.options argc argv offset s = .ok (pos, s'))
    (hpos : pos < argc) :
    parseCommand pfx sep cmd argc argv offset s
      = .error unexpectedArgumentsErr := by
  cases cmd with
  | mk opts args cmds cb =>
    rw [Command.commands] at hcmds
    rw [Command.arguments] at hargs
    rw [Command.options] at hopt
    subst hcmds
    subst hargs
    rw [parseCommand, hopt]
    simp [hpos, CommandMap.isEmpty, List.isEmpty]

/-- C1 witness for the amended statement: the concrete leaf root, two argv
cells, option phase stopping at index 1. -/
theorem parseCommand_leaf_trailing_tokens_witness :
    parseOptions '-' '='
        (Command.options (Command.mk [] [] .nil 7 : Command Nat)) 2
        [some (lit "app"), some (lit "extra")] 1 0 = .ok (1, 0) ∧
    parseCommand '-' '=' (Command.mk [] [] .nil 7 : Command Nat) 2
        [some (lit "app"), some (lit "extra")] 1 0
      = .error unexpectedArgumentsErr :=
  ⟨by decide,
   parseCommand_leaf_trailing_tokens '-' '=' _ 2 _ 1 0 1 0 rfl rfl
     (by decide) (by decide)⟩

/-- C5: for a command with a non-empty subcommand mapping and a positional
token left after a successful option phase, the token is looked up by exact
string match: a miss fails with "Command '<token>' not supported", a hit
recurses into the matched subcommand with the offset advanced past the
subcommand name. -/
theorem parseCommand_subcommand_dispatch {σ : Type} (pfx sep : Char)
    (cmd : Command σ) (argc : Nat) (argv : List (Option Str)) (offset : Nat)
    (s : σ) (pos : Nat) (s' : σ) (tok : Str)
    (hopt : parseOptions pfx sep cmd.options argc argv offset s = .ok (pos, s'))
    (hpos : pos < argc)
    (hcmds : cmd.commands ≠ .nil)
    (htok : argv.getD pos none = some tok) :
    (cmd.commands.find? tok = none →
        parseCommand pfx sep cmd argc argv offset s
          = .error (commandNotSupportedErr tok)) ∧
    (∀ c : Command σ, cmd.commands.find? tok = some c →
        parseCommand pfx sep cmd argc argv offset s
          = parseCommand pfx sep c argc argv (pos + 1) s') := by
  cases cmd with
  | mk opts args cmds cb =>
    rw [Command.options] at hopt
    rw [Command.commands] at hcmds
    rw [Command.commands]
    have hne : cmds.isEmpty = false := by
      cases cmds with
      | nil => exact absurd rfl hcmds
      | cons k c rest => rfl
    constructor
    · intro hf
      rw [parseCommand, hopt]
      simp only [hpos, hne, if_true, Bool.false_eq_true, if_false]
      rw [htok]
      exact findAndRecurse_miss pfx sep tok argc argv pos s' cmds hf
    · intro c hf
      rw [parseCommand, hopt]
      simp only [hpos, hne, if_true, Bool.false_eq_true, if_false]
      rw [htok]
      exact findAndRecurse_hit pfx sep tok argc argv pos s' cmds c hf

/-- C5 witness: the concrete tree root with subcommand `deploy`: the token
`bad` misses, the token `deploy` recurses into the subcommand at offset 2. -/
theorem parseCommand_subcommand_dispatch_witness :
    parseCommand '-' '=' treeParser.defaultAction 2
        [some (lit "app"), some (lit "bad")] 1 0
      = .error (commandNotSupportedErr (lit "bad")) ∧
    parseCommand '-' '=' treeParser.defaultAction 2
        [some (lit "app"), some (lit "deploy")] 1 0
      = parseCommand '-' '=' deployCmd 2
          [some (lit "app"), some (lit "deploy")] 2 0 :=
  ⟨(parseCommand_subcommand_dispatch '-' '=' treeParser.defaultAction 2
      [some (lit "app"), some (lit "bad")] 1 0 1 0 (lit "bad")
      (by decide) (by decide)
      (fun h => CommandMap.noConfusion h) rfl).1 rfl,
   (parseCommand_subcommand_dispatch '-' '=' treeParser.defaultAction 2
      [some (lit "app"), some (lit "deploy")] 1 0 1 0 (lit "deploy")
      (by decide) (by decide)
      (fun h => CommandMap.noConfusion h) rfl).2 deployCmd rfl⟩

/-- C10 counterexample: a null argv cell at an index beyond the offset and
below argc, inspected by the option phase as a lookahead value, is
dereferenced (undefined behaviour in the C++) instead of producing the
"Invalid number of arguments!" error. -/
theorem null_lookahead_cex :
    leafParser.parse 3 [some (lit "app"), some (lit "-a"), none] 0
      = .error .nullDeref ∧
    leafParser.parse 3 [some (lit "app"), some (lit "-a"), none] 0
      ≠ .error invalidArgsErr := by
  constructor
  · decide
  · decide

/-- C10 (amended): a null cell read at the head of the option loop is
caught by the null check and yields the error "Invalid number of
arguments!"; the greedy lookahead read of the cell at index i+1, however,
is performed with no null check, so a null there is read through
(undefined behaviour). -/
theorem parseOptions_null_checks :
    (∀ (σ : Type) (pfx sep : Char) (opts : List (Opt σ)) (argc : Nat)
        (argv : List (Option Str)) (i : Nat) (s : σ),
        i < argc → argv.getD i none = none →
        parseOptions pfx sep opts argc argv i s = .error invalidArgsErr) ∧
    (∀ (σ : Type) (pfx sep : Char) (opts : List (Opt σ)) (argc : Nat)
        (argv : List (Option Str)) (i : Nat) (s : σ) (arg name : Str),
        i + 1 < argc → argv.getD i none = some arg →
        strStartsWith arg pfx = true →
        parseOption arg pfx sep = (name, none) →
        argv.getD (i + 1) none = none →
        parseOptions pfx sep opts argc argv i s = .error .nullDeref) := by
  constructor
  · intro σ pfx sep opts argc argv i s hlt hnull
    obtain ⟨k, hk⟩ : ∃ k, argc - i = k + 1 := ⟨argc - i - 1, by omega⟩
    rw [parseOptions, hk, parseOptionsAux, hnull]
  · intro σ pfx sep opts argc argv i s arg name hlt hget hstart hsplit hnull
    obtain ⟨k, hk⟩ : ∃ k, argc - i = k + 2 := ⟨argc - i - 2, by omega⟩
    rw [parseOptions, hk, parseOptionsAux]
    simp only [hget, hstart, hsplit, hnull, if_true]

/-- C10 witness for the amended statement: a null at the loop head (index 1
of two cells) yields the invalid-arguments error; a null sitting where the
lookahead reads a value for `-a` is read through. -/
theorem parseOptions_null_checks_witness :
    parseOptions '-' '=' ([] : List (Opt Nat)) 2 [some (lit "app"), none] 1 0
      = .error invalidArgsErr ∧
    parseOptions '-' '=' ([] : List (Opt Nat)) 3
        [some (lit "app"), some (lit "-a"), none] 1 0
      = .error .nullDeref :=
  ⟨parseOptions_null_checks.1 Nat '-' '=' [] 2 [some (lit "app"), none] 1 0
      (by decide) rfl,
   parseOptions_null_checks.2 Nat '-' '=' [] 3
      [some (lit "app"), some (lit "-a"), none] 1 0 (lit "-a") (lit "a")
      (by decide) rfl (by decide) (by decide) rfl⟩

/-- C8: a token of only prefix characters (the prefix alone, or two
prefixes with nothing following) splits into the empty name with no inline
value, and the option phase then fails with the unexpected-option error
carrying the empty name, provided no registered option has an empty-string
alias (argv is assumed free of null cells within argc). -/
theorem bare_prefix_token_unexpected {σ : Type} (pfx sep : Char)
    (opts : List (Opt σ)) (argc : Nat) (argv : List (Option Str)) (i : Nat)
    (s : σ) (arg : Str)
    (hlt : i < argc)
    (hget : argv.getD i none = some arg)
    (hstart : strStartsWith arg pfx = true)
    (hshort : arg.length ≤ if strStartsWith (arg.drop 1) pfx then 2 else 1)
    (hnn : ∀ j, j < argc → argv.getD j none ≠ none)
    (hno : ∀ o ∈ opts, o.isMatch ([] : Str) = false) :
    parseOption arg pfx sep = ([], none) ∧
    parseOptions pfx sep opts argc argv i s
      = .error (unexpectedOptionErr []) := by
  have hsplit : parseOption arg pfx sep = ([], none) := by
    rw [parseOption]
    simp only [if_pos hshort]
  have hd : dispatchToken opts ([] : Str) none s
      = .error (unexpectedOptionErr []) := by
    rw [dispatchToken, matchOptions_no_match ([] : Str) none opts s hno]
    rfl
  have hd2 : ∀ v, dispatchToken opts ([] : Str) (some v) s
      = .error (unexpectedOptionErr []) := by
    intro v
    rw [dispatchToken, matchOptions_no_match ([] : Str) (some v) opts s hno]
    rfl
  refine ⟨hsplit, ?_⟩
  rcases Nat.lt_or_ge (i + 1) argc with h2 | h2
  · obtain ⟨k, hk⟩ : ∃ k, argc - i = k + 2 := ⟨argc - i - 2, by omega⟩
    rw [parseOptions, hk, parseOptionsAux]
    simp only [hget, hstart, hsplit, if_true]
    cases hg : argv.getD (i + 1) none with
    | none => exact absurd hg (hnn (i + 1) h2)
    | some nxt =>
      by_cases hs : strStartsWith nxt pfx = true
      · simp only [hg, hs, if_true, hd]
      · rw [Bool.not_eq_true] at hs
        simp only [hg, hs, Bool.false_eq_true, if_false, hd2 nxt]
  · have hk : argc - i = 1 := by omega
    rw [parseOptions, hk, parseOptionsAux]
    simp only [hget, hstart, hsplit, if_true, hd]

/-- C8 witness: the bare token `-` against a parser whose only option has
alias `q`: the split is the empty name with no value and the phase fails
with "Unexpected option ''". -/
theorem bare_prefix_token_unexpected_witness :
    parseOption (lit "-") '-' '=' = ([], none) ∧
    parseOptions '-' '=' [optQ] 1 [some (lit "-")] 0 0
      = .error (unexpectedOptionErr []) :=
  bare_prefix_token_unexpected '-' '=' [optQ] 1 [some (lit "-")] 0 0
    (lit "-") (by decide) rfl (by decide) (by decide)
    (fun j hj => by
      have hj0 : j = 0 := by omega
      subst hj0
      decide)
    (fun o ho => by
      rw [List.mem_singleton] at ho
      subst ho
      decide)

/-- One unfolding step of the match loop: head option not matching. -/
theorem matchOptions_cons_unmatched {σ : Type} {o : Opt σ} {name : Str}
    (rest : List (Opt σ)) (value : Option Str) (s : σ)
    (hm : o.isMatch name = false) :
    matchOptions (o :: rest) name value s = matchOptions rest name value s := by
  rw [matchOptions, if_neg (by simp [hm])]

/-- One unfolding step: matching head with a required-but-missing value. -/
theorem matchOptions_cons_required {σ : Type} {o : Opt σ} {name : Str}
    (rest : List (Opt σ)) (s : σ)
    (hm : o.isMatch name = true) (hr : o.expect = OptionArgument.Required) :
    matchOptions (o :: rest) name none s = .error (requiredValueErr name) := by
  rw [matchOptions, if_pos hm, if_pos ⟨rfl, hr⟩]

/-- One unfolding step: matching head whose callback errors. -/
theorem matchOptions_cons_cb_error {σ : Type} {o : Opt σ} {name : Str}
    (rest : List (Opt σ)) (value : Option Str) (s : σ) {s1 : σ} {err : PError}
    (hm : o.isMatch name = true)
    (hreq : ¬(value.isNone = true ∧ o.expect = OptionArgument.Required))
    (hcb : o.callback value name s = (s1, some err)) :
    matchOptions (o :: rest) name value s = .error err := by
  rw [matchOptions, if_pos hm, if_neg hreq, hcb]

/-- One unfolding step: matching head whose callback succeeds, threading the
updated state into the remaining options. -/
theorem matchOptions_cons_cb_ok {σ : Type} {o : Opt σ} {name : Str}
    (rest : List (Opt σ)) (value : Option Str) (s : σ) {s1 : σ}
    (hm : o.isMatch name = true)
    (hreq : ¬(value.isNone = true ∧ o.expect = OptionArgument.Required))
    (hcb : o.callback value name s = (s1, none)) :
    matchOptions (o :: rest) name value s =
      match matchOptions rest name value s1 with
      | .error e => .error e
      | .ok (n, s'') => .ok (n + 1, s'') := by
  rw [matchOptions, if_pos hm, if_neg hreq, hcb]

/-- On success the match loop returns the number of matching options and
the fold of their callbacks over the state, in registration order. -/
theorem matchOptions_ok_fold {σ : Type} (name : Str) (value : Option Str) :
    ∀ (opts : List (Opt σ)) (s : σ) (n : Nat) (s' : σ),
      matchOptions opts name value s = .ok (n, s') →
      n = (opts.filter (fun o => o.isMatch name)).length ∧
        s' = applyMatched opts name value s
  | [], s, n, s', h => by
    rw [matchOptions] at h
    simp only [Except.ok.injEq, Prod.mk.injEq] at h
    obtain ⟨hn, hs⟩ := h
    subst hn
    subst hs
    simp [applyMatched]
  | o :: rest, s, n, s', h => by
    by_cases hm : o.isMatch name = true
    · by_cases hreq : value.isNone = true ∧ o.expect = OptionArgument.Required
      · rw [matchOptions, if_pos hm, if_pos hreq] at h
        exact absurd h (by simp)
      · rcases hcb : o.callback value name s with ⟨s1, e⟩
        cases e with
        | some err =>
          rw [matchOptions_cons_cb_error rest value s hm hreq hcb] at h
          exact absurd h (by simp)
        | none =>
          rw [matchOptions_cons_cb_ok rest value s hm hreq hcb] at h
          cases hrec : matchOptions rest name value s1 with
          | error e' =>
            rw [hrec] at h
            simp at h
          | ok p =>
            rcases p with ⟨m, s2⟩
            rw [hrec] at h
            simp only [Except.ok.injEq, Prod.mk.injEq] at h
            obtain ⟨hn, hs⟩ := h
            obtain ⟨ih1, ih2⟩ := matchOptions_ok_fold name value rest s1 m s2 hrec
            constructor
            · rw [← hn, ih1, List.filter_cons_of_pos (by simpa using hm)]
              rfl
            · rw [← hs, ih2, applyMatched, applyMatched,
                List.filter_cons_of_pos (by simpa using hm), List.foldl_cons,
                hcb]
    · rw [Bool.not_eq_true] at hm
      rw [matchOptions_cons_unmatched rest value s hm] at h
      obtain ⟨ih1, ih2⟩ := matchOptions_ok_fold name value rest s n s' h
      refine ⟨?_, ?_⟩
      · rw [ih1, List.filter_cons_of_neg (by simp [hm])]
      · rw [ih2, applyMatched, applyMatched,
          List.filter_cons_of_neg (by simp [hm])]

/-- With no value resolved, a matching option whose argument expectation is
`Required` forces the match loop to fail. -/
theorem matchOptions_required_error {σ : Type} (name : Str) :
    ∀ (opts : List (Opt σ)) (s : σ),
      (∃ o ∈ opts, o.isMatch name = true ∧
          o.expect = OptionArgument.Required) →
      ∃ e, matchOptions opts name none s = .error e
  | [], _, h => by simp at h
  | o :: rest, s, h => by
    by_cases hm : o.isMatch name = true
    · by_cases hr : o.expect = OptionArgument.Required
      · exact ⟨requiredValueErr name, matchOptions_cons_required rest s hm hr⟩
      · have hreq : ¬((none : Option Str).isNone = true ∧
            o.expect = OptionArgument.Required) := fun hx => hr hx.2
        obtain ⟨w, hw, hwm, hwr⟩ := h
        rcases List.mem_cons.mp hw with hwo | hwrest
        · subst hwo
          exact absurd hwr hr
        · rcases hcb : o.callback none name s with ⟨s1, e⟩
          cases e with
          | some err =>
            exact ⟨err, matchOptions_cons_cb_error rest none s hm hreq hcb⟩
          | none =>
            obtain ⟨e', he'⟩ :=
              matchOptions_required_error name rest s1 ⟨w, hwrest, hwm, hwr⟩
            refine ⟨e', ?_⟩
            rw [matchOptions_cons_cb_ok rest none s hm hreq hcb, he']
    · rw [Bool.not_eq_true] at hm
      obtain ⟨w, hw, hwm, hwr⟩ := h
      rcases List.mem_cons.mp hw with hwo | hwrest
      · subst hwo
        rw [hwm] at hm
        exact absurd hm (by simp)
      · rw [matchOptions_cons_unmatched rest none s hm]
        exact matchOptions_required_error name rest s ⟨w, hwrest, hwm, hwr⟩

/-- When the first matching option requires a value and none was resolved,
the match loop fails with exactly the expects-a-value error naming the
resolved option name. -/
theorem matchOptions_first_required {σ : Type} (name : Str) :
    ∀ (opts : List (Opt σ)) (s : σ) (o : Opt σ),
      opts.find? (fun o => o.isMatch name) = some o →
      o.expect = OptionArgument.Required →
      matchOptions opts name none s = .error (requiredValueErr name)
  | [], _, o, h, _ => by simp at h
  | o' :: rest, s, o, h, hr => by
    by_cases hm : o'.isMatch name = true
    · simp only [List.find?_cons, hm, Option.some.injEq] at h
      subst h
      exact matchOptions_cons_required rest s hm hr
    · rw [Bool.not_eq_true] at hm
      simp only [List.find?_cons, hm] at h
      rw [matchOptions_cons_unmatched rest none s hm]
      exact matchOptions_first_required name rest s o h hr

/-- C4: for one resolved option token, a successful pass invokes the
callback of every registered option whose alias set contains the resolved
name (the count of matches is the filter's length and the state is the fold
of all matching callbacks — several matches all fire and are no error); a
matching option requiring a value fails the pass when none was resolved,
with exactly the expects-a-value error when it is the first match; and a
name matching no option makes the dispatch fail with the unexpected-option
error. -/
theorem option_matching_claims :
    (∀ (σ : Type) (opts : List (Opt σ)) (name : Str) (value : Option Str)
        (s : σ) (n : Nat) (s' : σ),
        matchOptions opts name value s = .ok (n, s') →
        n = (opts.filter (fun o => o.isMatch name)).length ∧
          s' = applyMatched opts name value s) ∧
    (∀ (σ : Type) (opts : List (Opt σ)) (name : Str) (s : σ),
        (∃ o ∈ opts, o.isMatch name = true ∧
            o.expect = OptionArgument.Required) →
        ∃ e, matchOptions opts name none s = .error e) ∧
    (∀ (σ : Type) (opts : List (Opt σ)) (name : Str) (s : σ) (o : Opt σ),
        opts.find? (fun o => o.isMatch name) = some o →
        o.expect = OptionArgument.Required →
        matchOptions opts name none s = .error (requiredValueErr name)) ∧
    (∀ (σ : Type) (opts : List (Opt σ)) (name : Str) (value : Option Str)
        (s : σ),
        (∀ o ∈ opts, o.isMatch name = false) →
        dispatchToken opts name value s = .error (unexpectedOptionErr name)) :=
  ⟨fun _ opts name value s n s' h =>
      matchOptions_ok_fold name value opts s n s' h,
   fun _ opts name s h => matchOptions_required_error name opts s h,
   fun _ opts name s o h hr => matchOptions_first_required name opts s o h hr,
   fun _ opts name value s h => by
     rw [dispatchToken, matchOptions_no_match name value opts s h]
     rfl⟩

/-- C4 witness: two options sharing the alias `q` both fire (count 2, state
folded through both callbacks); the required-value option `r` with no value
fails with the exact error; the unmatched name `z` produces the
unexpected-option error. -/
theorem option_matching_claims_witness :
    (matchOptions [optQ, optQ2] (lit "q") none 0 = .ok (2, 11)) ∧
    ((2 : Nat) =
        ([optQ, optQ2].filter (fun o => o.isMatch (lit "q"))).length ∧
      (11 : Nat) = applyMatched [optQ, optQ2] (lit "q") none 0) ∧
    (∃ e, matchOptions [optR] (lit "r") none (0 : Nat) = .error e) ∧
    (matchOptions [optR] (lit "r") none (0 : Nat)
      = .error (requiredValueErr (lit "r"))) ∧
    (dispatchToken [optQ] (lit "z") none (0 : Nat)
      = .error (unexpectedOptionErr (lit "z"))) :=
  ⟨by decide,
   option_matching_claims.1 Nat [optQ, optQ2] (lit "q") none 0 2 11
     (by decide),
   option_matching_claims.2.1 Nat [optR] (lit "r") 0
     ⟨optR, List.mem_singleton.mpr rfl, by decide, rfl⟩,
   option_matching_claims.2.2.1 Nat [optR] (lit "r") 0 optR rfl rfl,
   option_matching_claims.2.2.2 Nat [optQ] (lit "z") none 0
     (fun o ho => by
       rw [List.mem_singleton] at ho
       subst ho
       decide)⟩

/-- In a list containing the separator, the not-separator
`takeWhile`/`dropWhile` pair splits exactly at the first occurrence. -/
theorem splitAtFirstSep (sep : Char) :
    ∀ l : Str, sep ∈ l →
      l.takeWhile (fun c => c != sep) = l.take (l.indexOf sep) ∧
      l.dropWhile (fun c => c != sep) = sep :: l.drop (l.indexOf sep + 1)
  | c :: t, hmem => by
    by_cases hc : c = sep
    · subst hc
      refine ⟨?_, ?_⟩
      · rw [List.takeWhile_cons_of_neg (by simp), List.indexOf_cons_self,
          List.take_zero]
      · rw [List.dropWhile_cons_of_neg (by simp), List.indexOf_cons_self]
        rfl
    · have hb : (c != sep) = true := bne_iff_ne.mpr hc
      have hmt : sep ∈ t := by
        rcases List.mem_cons.mp hmem with h | h
        · exact absurd h.symm hc
        · exact h
      obtain ⟨ih1, ih2⟩ := splitAtFirstSep sep t hmt
      have hidx : (c :: t).indexOf sep = t.indexOf sep + 1 :=
        List.indexOf_cons_ne t hc
      refine ⟨?_, ?_⟩
      · simp only [List.takeWhile_cons, hb, if_true, hidx,
          List.take_succ_cons, ih1]
      · simp only [List.dropWhile_cons, hb, if_true, hidx, ih2,
          List.drop_succ_cons]

/-- With the separator absent, `dropWhile` with the not-separator predicate
consumes the whole list. -/
theorem dropWhileSep_of_not_mem (sep : Char) (l : Str) (h : sep ∉ l) :
    l.dropWhile (fun c => c != sep) = [] :=
  List.dropWhile_eq_nil_iff.mpr (fun x hx => by
    rcases eq_or_ne x sep with hxe | hxe
    · exact absurd (hxe ▸ hx) h
    · exact bne_iff_ne.mpr hxe)

/-- The token splitter agrees everywhere with the spec's description: strip
one or two leading prefix characters; the name runs to the first separator
occurrence in the remainder and the inline value is everything after it. -/
theorem parseOption_eq_spec (arg : Str) (pfx sep : Char) :
    parseOption arg pfx sep = parseOptionSpec arg pfx sep := by
  rw [parseOption, parseOptionSpec]
  by_cases hb : strStartsWith (arg.drop 1) pfx = true
  · simp only [hb, if_true]
    by_cases hlen : arg.length ≤ 2
    · rw [if_pos hlen, List.drop_eq_nil_of_le hlen]
      simp
    · rw [if_neg hlen]
      by_cases hmem : sep ∈ arg.drop 2
      · obtain ⟨h1, h2⟩ := splitAtFirstSep sep (arg.drop 2) hmem
        rw [h2, if_pos hmem, h1]
      · rw [dropWhileSep_of_not_mem sep (arg.drop 2) hmem, if_neg hmem]
  · rw [Bool.not_eq_true] at hb
    simp only [hb, Bool.false_eq_true, if_false]
    by_cases hlen : arg.length ≤ 1
    · rw [if_pos hlen, List.drop_eq_nil_of_le hlen]
      simp
    · rw [if_neg hlen]
      by_cases hmem : sep ∈ arg.drop 1
      · obtain ⟨h1, h2⟩ := splitAtFirstSep sep (arg.drop 1) hmem
        rw [h2, if_pos hmem, h1]
      · rw [dropWhileSep_of_not_mem sep (arg.drop 1) hmem, if_neg hmem]

/-- C3: the option-token split equals the spec's description (one or two
leading prefix characters stripped; the inline value is everything after
the first separator occurrence in the remainder); with an inline value the
loop consumes one token, and with no inline value and a following
non-prefix token, that token is consumed as the value and the offset
advances by two instead of one. -/
theorem option_token_resolution :
    (∀ (arg : Str) (pfx sep : Char),
        parseOption arg pfx sep = parseOptionSpec arg pfx sep) ∧
    (∀ (σ : Type) (pfx sep : Char) (opts : List (Opt σ)) (argc : Nat)
        (argv : List (Option Str)) (i : Nat) (s : σ) (arg name v : Str)
        (s2 : σ),
        i < argc → argv.getD i none = some arg →
        strStartsWith arg pfx = true →
        parseOption arg pfx sep = (name, some v) →
        dispatchToken opts name (some v) s = .ok s2 →
        parseOptions pfx sep opts argc argv i s
          = parseOptions pfx sep opts argc argv (i + 1) s2) ∧
    (∀ (σ : Type) (pfx sep : Char) (opts : List (Opt σ)) (argc : Nat)
        (argv : List (Option Str)) (i : Nat) (s : σ) (arg name nxt : Str)
        (s2 : σ),
        i + 1 < argc → argv.getD i none = some arg →
        strStartsWith arg pfx = true →
        parseOption arg pfx sep = (name, none) →
        argv.getD (i + 1) none = some nxt →
        strStartsWith nxt pfx = false →
        dispatchToken opts name (some nxt) s = .ok s2 →
        parseOptions pfx sep opts argc argv i s
          = parseOptions pfx sep opts argc argv (i + 2) s2) := by
  refine ⟨parseOption_eq_spec, ?_, ?_⟩
  · intro σ pfx sep opts argc argv i s arg name v s2 hlt hget hstart hsplit hd
    obtain ⟨k, hk⟩ : ∃ k, argc - i = k + 1 := ⟨argc - i - 1, by omega⟩
    have hk' : argc - (i + 1) = k := by omega
    rw [parseOptions, parseOptions, hk, hk', parseOptionsAux]
    simp only [hget, hstart, hsplit, hd, if_true]
  · intro σ pfx sep opts argc argv i s arg name nxt s2 hlt hget hstart hsplit
      hnxt hnpfx hd
    obtain ⟨k, hk⟩ : ∃ k, argc - i = k + 2 := ⟨argc - i - 2, by omega⟩
    have hk' : argc - (i + 2) = k := by omega
    rw [parseOptions, parseOptions, hk, hk', parseOptionsAux]
    simp only [hget, hstart, hsplit, hnxt, hnpfx, hd, if_true,
      Bool.false_eq_true, if_false]

/-- C3 witness: `--name=Alice` resolves inline (name `name`, value `Alice`)
and advances by one; `--age 30` consumes the following token as the value
and advances by two. -/
theorem option_token_resolution_witness :
    parseOption (lit "--name=Alice") '-' '='
      = parseOptionSpec (lit "--name=Alice") '-' '=' ∧
    parseOption (lit "--name=Alice") '-' '='
      = (lit "name", some (lit "Alice")) ∧
    parseOptions '-' '=' [optQ] 2 [some (lit "--q=1"), some (lit "z")] 0 0
      = parseOptions '-' '=' [optQ] 2 [some (lit "--q=1"), some (lit "z")] 1 1 ∧
    parseOptions '-' '=' [optQ] 2 [some (lit "--q"), some (lit "30")] 0 0
      = parseOptions '-' '=' [optQ] 2 [some (lit "--q"), some (lit "30")] 2 1 :=
  ⟨option_token_resolution.1 (lit "--name=Alice") '-' '=',
   by decide,
   option_token_resolution.2.1 Nat '-' '=' [optQ] 2
     [some (lit "--q=1"), some (lit "z")] 0 0 (lit "--q=1") (lit "q")
     (lit "1") 1 (by decide) rfl (by decide) (by decide) (by decide),
   option_token_resolution.2.2 Nat '-' '=' [optQ] 2
     [some (lit "--q"), some (lit "30")] 0 0 (lit "--q") (lit "q")
     (lit "30") 1 (by decide) rfl (by decide) (by decide) rfl (by decide)
     (by decide)⟩

/-- C6: a boolean option with no resolved value sets the destination to
true and succeeds; a resolved value must parse as a boolean literal
(`false` sets false, `true` sets true); a non-boolean value returns the
conversion's error with the destination untouched. -/
theorem bool_option_binding :
    (∀ (dest : Bool) (name : Str),
        boolOptionCallback dest none name = (true, none)) ∧
    (∀ (dest : Bool) (name : Str),
        boolOptionCallback dest (some (lit "false")) name = (false, none)) ∧
    (∀ (dest : Bool) (name : Str),
        boolOptionCallback dest (some (lit "true")) name = (true, none)) ∧
    (∀ (dest : Bool) (name v e : Str),
        tryParseBool v = .error e →
        boolOptionCallback dest (some v) name = (dest, some (.msg e))) := by
  refine ⟨fun _ _ => rfl, fun _ _ => rfl, fun _ _ => rfl, ?_⟩
  intro dest name v e h
  simp only [boolOptionCallback, parseBoolean, h]

/-- C6 witness: flag presence alone sets true; the literal `false` sets
false; the token `maybe` is rejected, leaving the destination as it was. -/
theorem bool_option_binding_witness :
    boolOptionCallback false none (lit "b") = (true, none) ∧
    boolOptionCallback true (some (lit "false")) (lit "b") = (false, none) ∧
    boolOptionCallback true (some (lit "maybe")) (lit "b")
      = (true, some (.msg (lit "Can not parse '" ++ lit "maybe"
          ++ lit "' as a boolean"))) :=
  ⟨bool_option_binding.1 false (lit "b"),
   bool_option_binding.2.1 true (lit "b"),
   bool_option_binding.2.2.2 true (lit "b") (lit "maybe") _ (by decide)⟩

/-- C2 counterexample: a non-numeric token handed to an integer option
yields an error that does not name the option — `parseIntArgument` ignores
its context parameter, so the message mentions only the offending text. -/
theorem int_option_error_no_name_cex :
    intOptionCallback 5 (lit "abc") (lit "age")
      = (5, some (.msg (lit "Can not parse '" ++ lit "abc"
          ++ lit "' as an integer"))) ∧
    ¬ (lit "age" <:+: (lit "Can not parse '" ++ lit "abc"
          ++ lit "' as an integer")) := by
  constructor
  · decide
  · decide

/-- C2 (amended): the integer and float option binders write exactly the
parsed value on a valid numeric token, and on a non-numeric token leave the
destination unchanged and return an error carrying the offending text; the
float binders' messages also name the option, while the integer binders'
error is produced by the generic conversion from the token alone and does
not name the option. -/
theorem numeric_option_binding :
    (∀ (dest : Int) (v : Str) (k : Int) (name : Str),
        tryParseInt v = .ok k → intOptionCallback dest v name = (k, none)) ∧
    (∀ (dest : Int) (v e name : Str),
        tryParseInt v = .error e →
        intOptionCallback dest v name = (dest, some (.msg e)) ∧ v <:+: e) ∧
    (∀ (dest : DecFloat) (v name : Str) (val : DecFloat) (n : Nat),
        strtodModel v = (val, n) → n ≠ 0 →
        float32OptionCallback dest v name = (val, none) ∧
        float64OptionCallback dest v name = (val, none)) ∧
    (∀ (dest : DecFloat) (v name : Str),
        (strtodModel v).2 = 0 →
        float32OptionCallback dest v name
            = (dest, some (.msg (float32OptErrMsg name v))) ∧
          name <:+: float32OptErrMsg name v ∧
          v <:+: float32OptErrMsg name v) ∧
    (∀ (dest : DecFloat) (v name : Str),
        (strtodModel v).2 = 0 →
        float64OptionCallback dest v name
            = (dest, some (.msg (float64OptErrMsg name v))) ∧
          name <:+: float64OptErrMsg name v ∧
          v <:+: float64OptErrMsg name v) := by
  refine ⟨?_, ?_, ?_, ?_, ?_⟩
  · intro dest v k name h
    simp only [intOptionCallback, parseIntArgument, h]
  · intro dest v e name h
    refine ⟨by simp only [intOptionCallback, parseIntArgument, h], ?_⟩
    rw [tryParseInt] at h
    split at h
    · exact absurd h (by simp)
    · simp only [Except.error.injEq] at h
      subst h
      exact ⟨lit "Can not parse '", lit "' as an integer", by simp⟩
  · intro dest v name val n h hn
    constructor
    · rw [float32OptionCallback, h]
      simp [hn]
    · rw [float64OptionCallback, h]
      simp [hn]
  · intro dest v name h
    refine ⟨?_, ?_, ?_⟩
    · rw [float32OptionCallback]
      simp [h]
    · exact ⟨lit "Option '", lit "' is not float32 value: '" ++ v ++ lit "'",
        by simp [float32OptErrMsg]⟩
    · exact ⟨lit "Option '" ++ name ++ lit "' is not float32 value: '",
        lit "'", by simp [float32OptErrMsg]⟩
  · intro dest v name h
    refine ⟨?_, ?_, ?_⟩
    · rw [float64OptionCallback]
      simp [h]
    · exact ⟨lit "Option '", lit "' is not float64 value: '" ++ v ++ lit "'",
        by simp [float64OptErrMsg]⟩
    · exact ⟨lit "Option '" ++ name ++ lit "' is not float64 value: '",
        lit "'", by simp [float64OptErrMsg]⟩

/-- C2 witness for the amended statement: `30` parses and is written
exactly; `abc` leaves the integer destination at 5 with a message carrying
the text; `3.5` is written to the float destination; `zz` leaves it
untouched with the option-naming message. -/
theorem numeric_option_binding_witness :
    intOptionCallback 0 (lit "30") (lit "age") = (30, none) ∧
    (intOptionCallback 5 (lit "abc") (lit "age")
        = (5, some (.msg (lit "Can not parse '" ++ lit "abc"
            ++ lit "' as an integer"))) ∧
      lit "abc" <:+: (lit "Can not parse '" ++ lit "abc"
            ++ lit "' as an integer")) ∧
    float32OptionCallback ⟨0, 0⟩ (lit "3.5") (lit "f")
      = (⟨35, 1⟩, none) ∧
    float32OptionCallback ⟨7, 0⟩ (lit "zz") (lit "f")
      = (⟨7, 0⟩, some (.msg (float32OptErrMsg (lit "f") (lit "zz")))) ∧
    float64OptionCallback ⟨7, 0⟩ (lit "zz") (lit "f")
      = (⟨7, 0⟩, some (.msg (float64OptErrMsg (lit "f") (lit "zz")))) :=
  ⟨numeric_option_binding.1 0 (lit "30") 30 (lit "age") (by decide),
   numeric_option_binding.2.1 5 (lit "abc") _ (lit "age") (by decide),
   (numeric_option_binding.2.2.1 ⟨0, 0⟩ (lit "3.5") (lit "f") ⟨35, 1⟩ 3
     (by decide) (by decide)).1,
   (numeric_option_binding.2.2.2.1 ⟨7, 0⟩ (lit "zz") (lit "f")
     (by decide)).1,
   (numeric_option_binding.2.2.2.2 ⟨7, 0⟩ (lit "zz") (lit "f")
     (by decide)).1⟩

/-- C9: the float32/float64 positional Argument binders assign the
conversion's result to the destination unconditionally — the final
destination is a function of the token alone — so a failing conversion
still overwrites the destination (with zero), even as the error is
returned; the integer and boolean Argument binders leave the destination
unchanged on failure, and the string binder never fails. -/
theorem float_argument_overwrite :
    (∀ (dest : DecFloat) (v name : Str),
        (float32ArgumentCallback dest v name).1 = (strtodModel v).1 ∧
        (float64ArgumentCallback dest v name).1 = (strtodModel v).1) ∧
    (float32ArgumentCallback ⟨1, 0⟩ (lit "zz") (lit "a")
        = (⟨0, 0⟩, some (.msg (float32ArgErrMsg (lit "a") (lit "zz")))) ∧
      (⟨1, 0⟩ : DecFloat) ≠ ⟨0, 0⟩) ∧
    (∀ (dest : Int) (v e name : Str),
        tryParseInt v = .error e →
        intArgumentCallback dest v name = (dest, some (.msg e))) ∧
    (∀ (dest : Bool) (v e name : Str),
        tryParseBool v = .error e →
        boolArgumentCallback dest v name = (dest, some (.msg e))) ∧
    (∀ (dest v name : Str),
        stringArgumentCallback dest v name = (v, none)) := by
  refine ⟨fun _ _ _ => ⟨rfl, rfl⟩, ⟨by decide, by decide⟩, ?_, ?_,
    fun _ _ _ => rfl⟩
  · intro dest v e name h
    simp only [intArgumentCallback, parseIntArgument, h]
  · intro dest v e name h
    simp only [boolArgumentCallback, parseBoolean, h]

/-- C9 witness: the float binder's destination component equals the
conversion's value at a concrete input; the integer and boolean binders
keep their destinations on the failing token `zz`; the string binder
assigns. -/
theorem float_argument_overwrite_witness :
    (float32ArgumentCallback ⟨9, 0⟩ (lit "2.5") (lit "a")).1
      = (strtodModel (lit "2.5")).1 ∧
    intArgumentCallback 9 (lit "zz") (lit "a")
      = (9, some (.msg (lit "Can not parse '" ++ lit "zz"
          ++ lit "' as an integer"))) ∧
    boolArgumentCallback true (lit "zz") (lit "a")
      = (true, some (.msg (lit "Can not parse '" ++ lit "zz"
          ++ lit "' as a boolean"))) ∧
    stringArgumentCallback (lit "old") (lit "new") (lit "a")
      = (lit "new", none) :=
  ⟨(float_argument_overwrite.1 ⟨9, 0⟩ (lit "2.5") (lit "a")).1,
   float_argument_overwrite.2.2.1 9 (lit "zz") _ (lit "a") (by decide),
   float_argument_overwrite.2.2.2.1 true (lit "zz") _ (lit "a") (by decide),
   float_argument_overwrite.2.2.2.2 (lit "old") (lit "new") (lit "a")⟩

end Solace
